import Mathlib

/-!
Shallow embedding of `src/app.py` ("CSV Matcher: Amazon vs Grossista"),
a single-file Streamlit application.

Modelling conventions:
* A pandas cell is `Cell`: `na` models NaN/None, `s` a string value, `b` a
  boolean value.  `pyStr` models Python's `str()` on such a value
  (`str(float("nan")) = "nan"`, `str(True) = "True"`).
* Python's `str.strip()` is modelled by `pyStrip`, which removes leading
  and trailing whitespace characters (structural recursion over the
  character list, so every concrete instance evaluates).
* A row (`pd.Series`) is an association list from column name to `Cell`;
  `Row.pyGet` models `row[col]` (the application only indexes columns that
  were selected from the frame's column list, so the lookup always succeeds;
  the `Cell.na` default is never reached on the modelled paths that matter).
* A parsed HTML document (the result of `BeautifulSoup(html, "html.parser")`)
  is the list of its tags, each with a tag name and attribute list; the
  Python-level string emptiness test `if not html` is modelled as the parsed
  document being empty.
* `st.session_state.match_map` (a Python dict keyed by `int(idx)` with row
  ids `0..n-1` after `reset_index`) is an insertion-ordered association list
  `MatchMap` with replace-on-repeat semantics, exactly a Python dict's.
* Image bytes are `List UInt8`; a streamed HTTP response is either `none`
  (a `requests.RequestException`) or `some (status, chunks)` where `chunks`
  are the successive results of `r.iter_content(chunk_size=64*1024)`.
-/

/-- A pandas cell value: NaN/None, a string, or a boolean. -/
inductive Cell where
  | na : Cell
  | s (v : String) : Cell
  | b (v : Bool) : Cell
deriving DecidableEq, Repr

/-- Python `str()` applied to a cell value: `str(nan) = "nan"`,
`str(True) = "True"`, `str(False) = "False"`. -/
def pyStr : Cell → String
  | .na => "nan"
  | .s v => v
  | .b true => "True"
  | .b false => "False"

/-- Python `str.strip()`: remove leading and trailing whitespace
characters. -/
def pyStrip (str : String) : String :=
  ⟨((str.data.dropWhile Char.isWhitespace).reverse.dropWhile
      Char.isWhitespace).reverse⟩

/-- `pd.notna` on a cell: every value except NaN/None is "not na". -/
def pd_notna : Cell → Bool
  | .na => false
  | _ => true

/-- A row of the frame (`pd.Series`): column name ↦ cell. -/
abbrev Row := List (String × Cell)

/-- `row[col]` (see the module docstring: on the modelled paths the column is
always present, so the `na` default is unreachable there). -/
def Row.pyGet (row : Row) (c : String) : Cell :=
  (row.lookup c).getD Cell.na

/-- `col in row` for a `pd.Series`: membership in the index. -/
def Row.pyMem (row : Row) (c : String) : Bool :=
  (row.lookup c).isSome

-- -----------------------------
-- Parsed HTML (BeautifulSoup)
-- -----------------------------

/-- One parsed tag: tag name plus attribute list. -/
structure Tag where
  name : String
  attrs : List (String × String)
deriving DecidableEq, Repr

/-- `tag.get(a)`: attribute lookup, `None` when absent. -/
def Tag.get (t : Tag) (a : String) : Option String :=
  t.attrs.lookup a

/-- A parsed document: the list of its tags in document order. -/
abbrev Doc := List Tag

/-- `soup.find("meta", property=v)`: the first `meta` tag whose `property`
attribute equals `v`. -/
def findMetaProperty (doc : Doc) (v : String) : Option Tag :=
  doc.find? (fun t => t.name == "meta" && t.get "property" == some v)

/-- `soup.find("meta", attrs={"name": v})`: the first `meta` tag whose `name`
attribute equals `v`. -/
def findMetaName (doc : Doc) (v : String) : Option Tag :=
  doc.find? (fun t => t.name == "meta" && t.get "name" == some v)

/-- The `twitter:image` fallback inside `extract_og_image`:
`tag = soup.find("meta", attrs={"name": "twitter:image"}); if tag and
tag.get("content"): return tag["content"].strip(); return None`.
`if tag and tag.get("content")` is Python truthiness: the tag was found, its
`content` attribute exists and is a non-empty string. -/
def twitterFallback (doc : Doc) : Option String :=
  match findMetaName doc "twitter:image" with
  | some t =>
    match t.get "content" with
    | some c => if c ≠ "" then some (pyStrip c) else none
    | none => none
  | none => none

/-- `extract_og_image(html)` from `src/app.py` (lines 89–104), on the parsed
document: try the first `meta property="og:image"` tag; if it exists and its
`content` attribute is a non-empty string, return that content stripped;
otherwise fall back to the first `meta name="twitter:image"` tag under the
same test; otherwise `None`. -/
def extract_og_image (doc : Doc) : Option String :=
  match findMetaProperty doc "og:image" with
  | some t =>
    match t.get "content" with
    | some c => if c ≠ "" then some (pyStrip c) else twitterFallback doc
    | none => twitterFallback doc
  | none => twitterFallback doc

-- -----------------------------
-- Image Retriever
-- -----------------------------

/-- `max_bytes = 3_500_000  # ~3.5MB` (line 115). -/
def max_bytes : Nat := 3500000

/-- `chunk_size=64 * 1024` (line 117). -/
def chunk_size : Nat := 64 * 1024

/-- The accumulation loop of `download_image_bytes` (lines 116–123):
`for chunk in r.iter_content(chunk_size=64*1024): if not chunk: break;
data.extend(chunk); if len(data) > max_bytes: break` and then
`return bytes(data)`. -/
def downloadLoop : List (List UInt8) → List UInt8 → List UInt8
  | [], data => data
  | c :: rest, data =>
    if c = [] then data
    else
      let d := data ++ c
      if d.length > max_bytes then d else downloadLoop rest d

/-- A streamed HTTP response: `none` for a transport failure
(`requests.RequestException`), otherwise the status code and the chunk
sequence produced by `r.iter_content`. -/
abbrev StreamResponse := Option (Nat × List (List UInt8))

/-- `download_image_bytes(url)` from `src/app.py` (lines 107–125), on the
response the network delivers for `url`: `None` on transport failure or
status ≥ 400, otherwise the accumulated (possibly truncated) bytes. -/
def download_image_bytes (resp : StreamResponse) : Option (List UInt8) :=
  match resp with
  | none => none
  | some (status, chunks) =>
    if status ≥ 400 then none
    else some (downloadLoop chunks [])

-- -----------------------------
-- Image Resolver
-- -----------------------------

/-- The page-fetch path of `get_amazon_image_url` (lines 136–144):
`url = str(row[amazon_url_col]).strip(); if not url: return None;
html = fetch_html(url); if not html: return None;
return extract_og_image(html)`.  The fetcher is a parameter so that
claims about (in)dependence on it can be stated; it returns the parsed
document of the page, `none` on failure, and the Python emptiness test
`if not html` is the document being empty. -/
def resolveViaPage (fetch : String → Option Doc) (row : Row)
    (amazon_url_col : String) : Option String :=
  let url := pyStrip (pyStr (row.pyGet amazon_url_col))
  if url = "" then none
  else
    match fetch url with
    | none => none
    | some doc => if doc.isEmpty then none else extract_og_image doc

/-- The direct branch of `get_amazon_image_url` (lines 133–134):
`if amazon_img_col and amazon_img_col in row and pd.notna(row[amazon_img_col])
and str(row[amazon_img_col]).strip(): return str(row[amazon_img_col]).strip()`
(Python truthiness: a configured non-empty column name, present in the row,
not NaN, stripping to a non-empty string). -/
def directImageField (row : Row) (amazon_img_col : Option String) :
    Option String :=
  match amazon_img_col with
  | some c =>
    if c = "" then none
    else if row.pyMem c && pd_notna (row.pyGet c)
            && pyStrip (pyStr (row.pyGet c)) ≠ "" then
      some (pyStrip (pyStr (row.pyGet c)))
    else none
  | none => none

/-- `get_amazon_image_url(row, amazon_url_col, amazon_img_col)` from
`src/app.py` (lines 128–144), assembled: the direct branch if it produced
a value, otherwise the page-fetch path. -/
def get_amazon_image_url (fetch : String → Option Doc) (row : Row)
    (amazon_url_col : String) (amazon_img_col : Option String) :
    Option String :=
  match directImageField row amazon_img_col with
  | some v => some v
  | none => resolveViaPage fetch row amazon_url_col

-- -----------------------------
-- Judgment Store (match_map)
-- -----------------------------

/-- `st.session_state.match_map`: a Python dict from row id to bool, as an
insertion-ordered association list with replace-on-repeat assignment. -/
abbrev MatchMap := List (Nat × Bool)

/-- Python dict assignment `m[i] = v`: replace the existing entry in place,
else append. -/
def mapSet : MatchMap → Nat → Bool → MatchMap
  | [], i, v => [(i, v)]
  | (j, w) :: rest, i, v =>
    if j = i then (i, v) :: rest else (j, w) :: mapSet rest i v

/-- `set_match(row_id, value)` (lines 154–155): `match_map[row_id] = value`. -/
def set_match (m : MatchMap) (i : Nat) (v : Bool) : MatchMap :=
  mapSet m i v

/-- `get_match(row_id)` (lines 158–159):
`bool(match_map.get(row_id, False))`. -/
def get_match (m : MatchMap) (i : Nat) : Bool :=
  (m.lookup i).getD false

/-- The "Reset match" button handler (lines 223–224):
`st.session_state.match_map = {}`. -/
def reset_all : MatchMap := []

-- -----------------------------
-- DataFrame and Export Composer
-- -----------------------------

/-- A loaded table (`pd.DataFrame` after `reset_index(drop=True)`): the
column names in order and the rows in order, each row a list of cells
aligned with the columns.  Row identity is the positional index. -/
structure Frame where
  cols : List String
  rows : List (List Cell)
deriving DecidableEq, Repr

/-- pandas column assignment `f[c] = vals` with `len(vals) = len(f)`:
if `c` is an existing column, overwrite its values in place (the column
list and every column's position are unchanged); otherwise append `c` as a
new last column. -/
def Frame.setCol (f : Frame) (c : String) (vals : List Cell) : Frame :=
  match f.cols.indexOf? c with
  | some idx =>
    { cols := f.cols
      rows := (f.rows.zip vals).map (fun rv => rv.1.set idx rv.2) }
  | none =>
    { cols := f.cols ++ [c]
      rows := (f.rows.zip vals).map (fun rv => rv.1 ++ [rv.2]) }

/-- The export block of `src/app.py` (lines 297–299):
`out = df.copy(); out["MATCH"] = [bool(match_map.get(i, False)) for i in
range(len(out))]`. -/
def export_composer (df : Frame) (m : MatchMap) : Frame :=
  df.setCol "MATCH"
    ((List.range df.rows.length).map (fun i => Cell.b (get_match m i)))

-- -----------------------------
-- Pagination
-- -----------------------------

/-- `total_pages = max(1, (len(df) + page_size - 1) // page_size)`
(line 210). -/
def total_pages (n page_size : Nat) : Nat :=
  max 1 ((n + page_size - 1) / page_size)

/-- `start = (page - 1) * page_size` (line 227). -/
def page_start (page page_size : Nat) : Nat :=
  (page - 1) * page_size

/-- `end = min(len(df), start + page_size)` (line 228). -/
def page_end (n page page_size : Nat) : Nat :=
  min n (page_start page page_size + page_size)

/-- `page_df = df.iloc[start:end]` (line 229): the rows with positional
indices `start ≤ i < end`. -/
def page_df (df : List α) (page page_size : Nat) : List α :=
  (df.drop (page_start page page_size)).take
    (page_end df.length page page_size - page_start page page_size)

-- -----------------------------
-- Per-row render loop: pacing
-- -----------------------------

/-- The pacing condition of the render loop (line 286):
`if rate_limit_ms > 0 and amazon_img_col is None: time.sleep(...)`.
`true` iff the sleep executes after the row.  The condition reads only the
slider value and whether the optional Amazon-image column is configured;
in particular it does not look at the row or at whether the Grossista
(secondary) image download hit the network. -/
def row_sleep (rate_limit_ms : Nat) (amazon_img_col : Option String) : Bool :=
  decide (rate_limit_ms > 0) && amazon_img_col.isNone

-- -----------------------------
-- Session traces
-- -----------------------------

/-- One operator action on the Judgment Store within a session. -/
inductive JOp where
  | set (i : Nat) (v : Bool) : JOp
  | resetAll : JOp
deriving DecidableEq, Repr

/-- Apply one Judgment Store action. -/
def jStep (m : MatchMap) : JOp → MatchMap
  | .set i v => set_match m i v
  | .resetAll => reset_all

/-- Run a trace of Judgment Store actions from the initial empty map
(`st.session_state.match_map = {}`). -/
def applyJOps (ops : List JOp) : MatchMap :=
  ops.foldl jStep []

/-- Modelled from the spec claim's words: "the value of the most recent set
for that identity since the most recent reset_all (or since the start), and
false if there is none" — scan the trace from the end; the first event that
is a set to this identity gives its value, a reset gives false, an exhausted
trace gives false. -/
def lastJudgmentFrom : List JOp → Nat → Bool
  | [], _ => false
  | .resetAll :: _, _ => false
  | .set j v :: rest, i => if j = i then v else lastJudgmentFrom rest i

/-- Modelled from the spec claim's words (see `lastJudgmentFrom`). -/
def lastJudgment (ops : List JOp) (i : Nat) : Bool :=
  lastJudgmentFrom ops.reverse i

/-- The values of the exported `MATCH` column for a table of `n` rows:
`[bool(match_map.get(i, False)) for i in range(len(out))]` (line 299). -/
def exportMatchValues (n : Nat) (m : MatchMap) : List Bool :=
  (List.range n).map (get_match m)

-- -----------------------------
-- Whole-app session state machine
-- -----------------------------

/-- The session-scoped state the claims are about: the Judgment Store and
the length of the currently loaded table. -/
structure AppState where
  matchMap : MatchMap
  tableLen : Nat
deriving DecidableEq, Repr

/-- One session event: the operator uploads a (new) table of `n` rows, the
script reruns (`pd.read_csv` + `reset_index`, lines 173–179); a checkbox
toggle calls `set_match` (line 246); the "Reset match" button empties the
map (lines 223–224). -/
inductive AppOp where
  | loadTable (n : Nat) : AppOp
  | setM (i : Nat) (v : Bool) : AppOp
  | resetButton : AppOp
deriving DecidableEq, Repr

/-- The session transition function.  Loading a table replaces `df` but
leaves `match_map` untouched: the session-state block (lines 150–151) only
initializes `match_map` when the key is absent, and nothing in the load
path clears it. -/
def appStep (s : AppState) : AppOp → AppState
  | .loadTable n => { s with tableLen := n }
  | .setM i v => { s with matchMap := set_match s.matchMap i v }
  | .resetButton => { s with matchMap := reset_all }

/-- Run a session from its start: empty Judgment Store, no rows loaded. -/
def appRun (ops : List AppOp) : AppState :=
  ops.foldl appStep ⟨[], 0⟩

/-- The in-range invariant asserted by the spec: every entry of the
Judgment Store names a row of the currently loaded table. -/
def storeInRange (s : AppState) : Prop :=
  ∀ p ∈ s.matchMap, p.1 < s.tableLen

instance (s : AppState) : Decidable (storeInRange s) :=
  inferInstanceAs (Decidable (∀ p ∈ s.matchMap, p.1 < s.tableLen))

/-- Modelled from the amended reading of the Metadata Extractor claim: the
usable content of an optionally found meta tag — present iff the tag was
found and its `content` attribute exists and is a non-empty string (a
string of only whitespace is non-empty and thus usable). -/
def metaContent : Option Tag → Option String
  | some t =>
    match t.get "content" with
    | some c => if c = "" then none else some c
    | none => none
  | none => none

/-- Modelled from the amended reading of the Metadata Extractor claim: take
the usable `og:image` content if any, else the usable `twitter:image`
content if any, else absent; the selected content is returned trimmed (a
whitespace-only content is selected and trims to the empty string). -/
def extract_og_image_amended (doc : Doc) : Option String :=
  match metaContent (findMetaProperty doc "og:image") with
  | some c => some (pyStrip c)
  | none =>
    match metaContent (findMetaName doc "twitter:image") with
    | some c => some (pyStrip c)
    | none => none

-- -----------------------------
-- Helper lemmas
-- -----------------------------

/-- The accumulation loop never returns more than `max_bytes` plus one
chunk: it checks the cap after every extension, so it can overshoot by at
most the size of the last chunk taken. -/
theorem downloadLoop_length_le (K : Nat) :
    ∀ (chunks : List (List UInt8)) (data : List UInt8),
      (∀ c ∈ chunks, c.length ≤ K) → data.length ≤ max_bytes →
      (downloadLoop chunks data).length ≤ max_bytes + K := by
  intro chunks
  induction chunks with
  | nil =>
    intro data _ hd
    simpa [downloadLoop] using le_trans hd (Nat.le_add_right _ _)
  | cons c rest ih =>
    intro data hall hd
    rw [downloadLoop]
    by_cases hc : c = []
    · rw [if_pos hc]; exact le_trans hd (Nat.le_add_right _ _)
    · rw [if_neg hc]
      have hcK : c.length ≤ K := hall c (by simp)
      by_cases hlen : (data ++ c).length > max_bytes
      · rw [if_pos hlen]
        have hsum : (data ++ c).length = data.length + c.length :=
          List.length_append data c
        omega
      · rw [if_neg hlen]
        exact ih (data ++ c) (fun x hx => hall x (by simp [hx]))
          (by simpa using Nat.le_of_not_lt hlen)

/-- C3 (confirmed): for every successful response (status < 400) whose
stream is delivered in chunks of at most 64 KiB, `download_image_bytes`
returns accumulated bytes (never an error), of length at most
`max_bytes + chunk_size` (≈3.5 MB plus one chunk) — in particular strictly
less than 4 MiB, so a 4 MB stream is truncated, not returned whole. -/
theorem C3_download_capped (status : Nat) (chunks : List (List UInt8))
    (hstatus : status < 400)
    (hchunk : ∀ c ∈ chunks, c.length ≤ chunk_size) :
    ∃ data, download_image_bytes (some (status, chunks)) = some data ∧
      data.length ≤ max_bytes + chunk_size ∧
      data.length < 4 * 1024 * 1024 := by
  refine ⟨downloadLoop chunks [], ?_, ?_, ?_⟩
  · simp [download_image_bytes, Nat.not_le.mpr hstatus]
  · exact downloadLoop_length_le chunk_size chunks [] hchunk (by simp)
  · have h := downloadLoop_length_le chunk_size chunks [] hchunk (by simp)
    have : max_bytes + chunk_size < 4 * 1024 * 1024 := by decide
    omega

/-- C3 witness: the 4 MiB stream of 64 chunks of 64 KiB each. -/
theorem C3_download_capped_witness :
    ∃ data,
      download_image_bytes
        (some (200, List.replicate 64 (List.replicate chunk_size (0 : UInt8))))
        = some data ∧
      data.length ≤ max_bytes + chunk_size ∧
      data.length < 4 * 1024 * 1024 :=
  C3_download_capped 200 (List.replicate 64 (List.replicate chunk_size 0))
    (by decide)
    (by intro c hc
        rw [List.eq_of_mem_replicate hc]
        simp)

/-- C7 (confirmed): the pacing sleep after a row executes exactly when the
optional Amazon-image column is not configured and the pacing slider is
positive; when that column is configured the sleep never executes, whatever
the slider says (and the condition never consults the secondary image path:
`row_sleep` does not take the row at all). -/
theorem C7_pacing_iff (rate_limit_ms : Nat) (amazon_img_col : Option String) :
    (row_sleep rate_limit_ms amazon_img_col = true ↔
      amazon_img_col = none ∧ 0 < rate_limit_ms) ∧
    ∀ c, row_sleep rate_limit_ms (some c) = false := by
  constructor
  · cases amazon_img_col <;> simp [row_sleep, Nat.pos_iff_ne_zero]
  · intro c; simp [row_sleep]

/-- Python dict assignment then lookup: reading back the written key gives
the new value, any other key is unaffected. -/
theorem get_match_mapSet (m : MatchMap) (j i : Nat) (v : Bool) :
    get_match (mapSet m j v) i = if j = i then v else get_match m i := by
  induction m with
  | nil =>
    by_cases h : j = i
    · simp [mapSet, get_match, List.lookup, h]
    · have hne : (i == j) = false := beq_false_of_ne fun hij => h hij.symm
      simp [mapSet, get_match, List.lookup, h, hne]
  | cons kw rest ih =>
    obtain ⟨k, w⟩ := kw
    by_cases hkj : k = j
    · subst hkj
      by_cases h : k = i
      · simp [mapSet, get_match, List.lookup, h]
      · have hne : (i == k) = false := beq_false_of_ne fun hik => h hik.symm
        simp [mapSet, get_match, List.lookup, h, hne]
    · by_cases hki : k = i
      · subst hki
        have hji : ¬ j = k := fun hjk => hkj hjk.symm
        simp [mapSet, get_match, List.lookup, hkj, hji]
      · have hik : (i == k) = false := beq_false_of_ne fun hik => hki hik.symm
        simp [mapSet, get_match, List.lookup, hkj, hik] at ih ⊢
        exact ih

/-- Running a trace of Judgment Store actions and then reading a row id
gives the value of the most recent set to that id since the most recent
bulk reset, and false if there is none. -/
theorem get_match_applyJOps (ops : List JOp) (i : Nat) :
    get_match (applyJOps ops) i = lastJudgment ops i := by
  induction ops using List.reverseRecOn with
  | nil => rfl
  | append_singleton l op ih =>
    have happ : applyJOps (l ++ [op]) = jStep (applyJOps l) op := by
      simp [applyJOps, List.foldl_append]
    have hrev : lastJudgment (l ++ [op]) i
        = lastJudgmentFrom (op :: l.reverse) i := by
      simp [lastJudgment]
    rw [happ, hrev]
    cases op with
    | resetAll => simp [jStep, reset_all, get_match, lastJudgmentFrom, List.lookup]
    | set j v =>
      rw [show jStep (applyJOps l) (JOp.set j v)
            = mapSet (applyJOps l) j v from rfl]
      rw [get_match_mapSet]
      simp only [lastJudgmentFrom]
      by_cases h : j = i <;> simp [h, ih, lastJudgment]

/-- C4 (confirmed): the exported boolean for a row equals the value of the
most recent `set_match` for that row id since the most recent reset (or
since the session start), and false when there is none. -/
theorem C4_export_last_write_wins (ops : List JOp) (n i : Nat) (h : i < n) :
    (exportMatchValues n (applyJOps ops)).getD i false = lastJudgment ops i := by
  simp [exportMatchValues, List.getD_eq_getElem?_getD, List.getElem?_range, h,
    get_match_applyJOps]

/-- C4 witness: `set(5, true)` then `set(5, false)` exports false for row 5,
and a trailing `reset_all` exports false for a previously set row. -/
theorem C4_export_last_write_wins_witness :
    5 < 10 ∧
    (exportMatchValues 10 (applyJOps [JOp.set 5 true, JOp.set 5 false])).getD 5 false
      = lastJudgment [JOp.set 5 true, JOp.set 5 false] 5 ∧
    lastJudgment [JOp.set 5 true, JOp.set 5 false] 5 = false ∧
    (exportMatchValues 10
        (applyJOps [JOp.set 1 true, JOp.set 2 true, JOp.resetAll])).getD 1 false
      = lastJudgment [JOp.set 1 true, JOp.set 2 true, JOp.resetAll] 1 ∧
    lastJudgment [JOp.set 1 true, JOp.set 2 true, JOp.resetAll] 1 = false :=
  ⟨by decide,
   C4_export_last_write_wins [JOp.set 5 true, JOp.set 5 false] 10 5 (by decide),
   by decide,
   C4_export_last_write_wins [JOp.set 1 true, JOp.set 2 true, JOp.resetAll]
     10 1 (by decide),
   by decide⟩

/-- C8 counterexample: load a 100-row table, judge row 50, then load a
10-row table — the Judgment Store still holds the entry for row 50, which
is outside the new table's range, because the load path never clears
`match_map` (it is only created once per session). -/
theorem C8_counterexample :
    ¬ storeInRange
        (appRun [AppOp.loadTable 100, AppOp.setM 50 true, AppOp.loadTable 10]) := by
  decide

/-- C8 (corrected): the "Reset match" button clears every Judgment Store
entry (so the in-range invariant holds trivially right after a reset), but
loading a new table leaves the store untouched, so entries for row ids
outside the newly loaded table's range can persist. -/
theorem C8_reset_clears_but_load_preserves (s : AppState) (n : Nat) :
    (appStep s AppOp.resetButton).matchMap = [] ∧
    storeInRange (appStep s AppOp.resetButton) ∧
    (appStep s (AppOp.loadTable n)).matchMap = s.matchMap := by
  refine ⟨rfl, ?_, rfl⟩
  intro p hp
  simp [appStep, reset_all] at hp

/-- With a loaded table, `total_pages` is exactly the ceiling division. -/
theorem total_pages_pos_eq (n p : Nat) (hp : 0 < p) (hn : 0 < n) :
    total_pages n p = (n + p - 1) / p := by
  have hq : 1 ≤ (n + p - 1) / p := by
    rw [Nat.le_div_iff_mul_le hp]; omega
  simp [total_pages]; omega

/-- `total_pages` pages suffice to hold all rows. -/
theorem total_pages_le_mul (n p : Nat) (hp : 0 < p) (hn : 0 < n) :
    n ≤ total_pages n p * p := by
  rw [total_pages_pos_eq n p hp hn, Nat.mul_comm]
  have h1 := Nat.div_add_mod (n + p - 1) p
  have h2 := Nat.mod_lt (n + p - 1) hp
  omega

/-- One fewer page does not suffice: the last page is non-empty. -/
theorem total_pages_pred_mul_lt (n p : Nat) (hp : 0 < p) (hn : 0 < n) :
    (total_pages n p - 1) * p < n := by
  rw [total_pages_pos_eq n p hp hn]
  have h1 := Nat.div_add_mod (n + p - 1) p
  have h2 := Nat.mod_lt (n + p - 1) hp
  have h3 : ((n + p - 1) / p - 1) * p = (n + p - 1) / p * p - p := by
    cases Nat.eq_zero_or_pos ((n + p - 1) / p) with
    | inl h => simp [h]
    | inr h => rw [Nat.sub_one_mul]
  rw [h3, Nat.mul_comm]
  omega

/-- C9 (confirmed): for a table of `n` rows and positive page size `p`, the
page count equals `max 1 ⌈n / p⌉` — it is at least 1, equals 1 on an empty
table, and for a non-empty table it is the least number of `p`-row pages
covering all rows — and page `k` (1-based) holds exactly the rows with
positional indices `(k-1)·p` through `min n (k·p) - 1`, in order. -/
theorem C9_pagination (df : List α) (p k : Nat) (hp : 0 < p) :
    1 ≤ total_pages df.length p ∧
    (df.length = 0 → total_pages df.length p = 1) ∧
    (0 < df.length →
      df.length ≤ total_pages df.length p * p ∧
      (total_pages df.length p - 1) * p < df.length) ∧
    (1 ≤ k →
      ∀ j, (page_df df k p)[j]? =
        if (k - 1) * p + j < min df.length (k * p)
        then df[(k - 1) * p + j]? else none) := by
  refine ⟨le_max_left _ _, ?_, ?_, ?_⟩
  · intro h0
    have : p - 1 < p := by omega
    simp [total_pages, h0, Nat.div_eq_of_lt this]
  · intro hn
    exact ⟨total_pages_le_mul _ _ hp hn, total_pages_pred_mul_lt _ _ hp hn⟩
  · intro hk j
    have hkp : (k - 1) * p + p = k * p := by
      cases k with
      | zero => omega
      | succ k' => simp [Nat.succ_mul]
    simp only [page_df, page_end, page_start]
    rw [hkp]
    by_cases hj : j < min df.length (k * p) - (k - 1) * p
    · rw [List.getElem?_take_of_lt hj, List.getElem?_drop, if_pos (by omega)]
    · rw [List.getElem?_take_eq_none (by omega), if_neg (by omega)]

/-- C9 witness: 95 rows, page size 20 — 5 pages in total, page 5 is the
15 rows with indices 80..94. -/
theorem C9_pagination_witness :
    (0 : Nat) < 20 ∧ (1 : Nat) ≤ 5 ∧
    total_pages (List.range 95).length 20 = 5 ∧
    page_df (List.range 95) 5 20 = List.range' 80 15 ∧
    (∀ j, (page_df (List.range 95) 5 20)[j]? =
      if (5 - 1) * 20 + j < min (List.range 95).length (5 * 20)
      then (List.range 95)[(5 - 1) * 20 + j]? else none) :=
  ⟨by decide, by decide, by decide, by decide,
   (C9_pagination (List.range 95) 20 5 (by decide)).2.2.2 (by decide)⟩

/-- Zipping a list with a function mapped over the matching index range is
the same as enumerating the list (from `k`) and pairing each element with
the function of its index. -/
theorem zip_range'_map {α β : Type} (g : Nat → β) :
    ∀ (l : List α) (k : Nat),
      l.zip ((List.range' k l.length).map g)
        = (l.enumFrom k).map (fun p => (p.2, g p.1)) := by
  intro l
  induction l with
  | nil => intro k; rfl
  | cons a t ih =>
    intro k
    simp only [List.length_cons, List.range'_succ, List.map_cons,
      List.zip_cons_cons, List.enumFrom_cons]
    rw [ih (k + 1)]

/-- Specialization of `zip_range'_map` to `List.range` / `List.enum`. -/
theorem zip_range_map {α β : Type} (g : Nat → β) (l : List α) :
    l.zip ((List.range l.length).map g)
      = l.enum.map (fun p => (p.2, g p.1)) := by
  rw [List.range_eq_range', List.enum]
  exact zip_range'_map g l 0

/-- A column name that is not among a frame's columns has no index. -/
theorem indexOf?_eq_none_of_not_mem {l : List String} {a : String}
    (h : a ∉ l) : l.indexOf? a = none := by
  rw [List.indexOf?_eq_none_iff]
  intro x hx hax
  exact h (by rwa [eq_of_beq hax] at hx)

/-- A column name among a frame's columns has an index. -/
theorem indexOf?_isSome_of_mem {l : List String} {a : String}
    (h : a ∈ l) : ∃ i, l.indexOf? a = some i := by
  cases hi : l.indexOf? a with
  | none => exact absurd ((List.indexOf?_eq_none_iff.mp hi) a h) (by simp)
  | some i => exact ⟨i, rfl⟩

/-- C1 counterexample: an input table that already has a column named
`MATCH` (one column, one row).  The export then has the same single column
— pandas assignment overwrote it in place — not the input's columns plus
one appended column, so the claim's "exactly one boolean column appended
at the end" fails on this input. -/
theorem C1_counterexample :
    (export_composer ⟨["MATCH"], [[Cell.s "x"]]⟩ []).cols = ["MATCH"] ∧
    (export_composer ⟨["MATCH"], [[Cell.s "x"]]⟩ []).cols.length
      ≠ (["MATCH"] : List String).length + 1 := by
  constructor
  · rfl
  · decide

/-- C1 (corrected): for every input table whose columns do not already
include one named `MATCH`, and every judgment map, the export has the same
number of rows in the same order, the input's columns preserved in order
with exactly one boolean column appended at the end, and the appended
value for every row id never present in the judgment map is false. -/
theorem C1_export_appends_match (df : Frame) (m : MatchMap)
    (h : "MATCH" ∉ df.cols) :
    (export_composer df m).cols = df.cols ++ ["MATCH"] ∧
    (export_composer df m).rows.length = df.rows.length ∧
    (export_composer df m).rows
      = df.rows.enum.map (fun p => p.2 ++ [Cell.b (get_match m p.1)]) ∧
    (∀ i, m.lookup i = none → get_match m i = false) := by
  have hidx : df.cols.indexOf? "MATCH" = none := indexOf?_eq_none_of_not_mem h
  have hrows : (export_composer df m).rows
      = df.rows.enum.map (fun p => p.2 ++ [Cell.b (get_match m p.1)]) := by
    simp only [export_composer, Frame.setCol, hidx]
    rw [zip_range_map (fun i => Cell.b (get_match m i)) df.rows, List.map_map]
    rfl
  refine ⟨?_, ?_, hrows, ?_⟩
  · simp [export_composer, Frame.setCol, hidx]
  · rw [hrows]; simp
  · intro i hi; simp [get_match, hi]

/-- C1 witness: a two-column, two-row table without a `MATCH` column and a
judgment map marking row 1. -/
theorem C1_export_appends_match_witness :
    ("MATCH" ∉ (["a", "b"] : List String)) ∧
    (export_composer ⟨["a", "b"], [[Cell.s "1", Cell.s "2"], [Cell.s "3", Cell.s "4"]]⟩
        [(1, true)]).cols = ["a", "b"] ++ ["MATCH"] ∧
    (export_composer ⟨["a", "b"], [[Cell.s "1", Cell.s "2"], [Cell.s "3", Cell.s "4"]]⟩
        [(1, true)]).rows
      = (([[Cell.s "1", Cell.s "2"], [Cell.s "3", Cell.s "4"]] : List (List Cell)).enum.map
          (fun p => p.2 ++ [Cell.b (get_match [(1, true)] p.1)])) :=
  ⟨by decide,
   (C1_export_appends_match
     ⟨["a", "b"], [[Cell.s "1", Cell.s "2"], [Cell.s "3", Cell.s "4"]]⟩
     [(1, true)] (by decide)).1,
   (C1_export_appends_match
     ⟨["a", "b"], [[Cell.s "1", Cell.s "2"], [Cell.s "3", Cell.s "4"]]⟩
     [(1, true)] (by decide)).2.2.1⟩

/-- C10 (confirmed): when the input table already contains a column named
`MATCH`, the export keeps the very same column list (same count, same
positions) and overwrites the existing `MATCH` column in place, row by
row, with the judgment values. -/
theorem C10_export_overwrites_match (df : Frame) (m : MatchMap)
    (h : "MATCH" ∈ df.cols) :
    (export_composer df m).cols = df.cols ∧
    (export_composer df m).cols.length = df.cols.length ∧
    ∃ idx, df.cols.indexOf? "MATCH" = some idx ∧
      (export_composer df m).rows
        = df.rows.enum.map (fun p => p.2.set idx (Cell.b (get_match m p.1))) := by
  obtain ⟨idx, hidx⟩ := indexOf?_isSome_of_mem h
  refine ⟨?_, ?_, idx, hidx, ?_⟩
  · simp [export_composer, Frame.setCol, hidx]
  · simp [export_composer, Frame.setCol, hidx]
  · simp only [export_composer, Frame.setCol, hidx]
    rw [zip_range_map (fun i => Cell.b (get_match m i)) df.rows, List.map_map]
    rfl

/-- C10 witness: a table whose second column is already named `MATCH`. -/
theorem C10_export_overwrites_match_witness :
    ("MATCH" ∈ (["a", "MATCH"] : List String)) ∧
    (export_composer ⟨["a", "MATCH"], [[Cell.s "1", Cell.s "old"]]⟩
        [(0, true)]).cols = ["a", "MATCH"] ∧
    ∃ idx, (["a", "MATCH"] : List String).indexOf? "MATCH" = some idx ∧
      (export_composer ⟨["a", "MATCH"], [[Cell.s "1", Cell.s "old"]]⟩
          [(0, true)]).rows
        = (([[Cell.s "1", Cell.s "old"]] : List (List Cell)).enum.map
            (fun p => p.2.set idx (Cell.b (get_match [(0, true)] p.1)))) :=
  ⟨by decide,
   (C10_export_overwrites_match
     ⟨["a", "MATCH"], [[Cell.s "1", Cell.s "old"]]⟩
     [(0, true)] (by decide)).1,
   (C10_export_overwrites_match
     ⟨["a", "MATCH"], [[Cell.s "1", Cell.s "old"]]⟩
     [(0, true)] (by decide)).2.2⟩

/-- The twitter fallback of the code agrees with the amended spec-side
selection composed with trimming. -/
theorem twitterFallback_eq (doc : Doc) :
    twitterFallback doc
      = match metaContent (findMetaName doc "twitter:image") with
        | some c => some (pyStrip c)
        | none => none := by
  unfold twitterFallback metaContent
  cases hfind : findMetaName doc "twitter:image" with
  | none => rfl
  | some t =>
    cases hget : t.get "content" with
    | none => simp [hget]
    | some c =>
      by_cases hc : c = "" <;> simp [hget, hc]

/-- C2 counterexample: a document whose only tag is
`<meta property="og:image" content="   ">` (whitespace-only content).  The
claim says the result must be absent; the code returns the present value
`some ""` — the whitespace-only content is truthy in Python, is selected,
and strips to the empty string. -/
theorem C2_counterexample :
    extract_og_image [⟨"meta", [("property", "og:image"), ("content", "   ")]⟩]
      = some "" ∧
    extract_og_image [⟨"meta", [("property", "og:image"), ("content", "   ")]⟩]
      ≠ none := by
  constructor
  · rfl
  · decide

/-- C2 (corrected): the extractor returns the first `og:image` meta tag's
content, trimmed, whenever that tag exists and its content attribute is a
non-empty string; otherwise the first `twitter:image` meta tag's content,
trimmed, under the same condition; otherwise absent.  A whitespace-only
content is non-empty, hence selected, and trims to the (present) empty
string; an empty content causes fallback rather than absence. -/
theorem C2_extract_priority (doc : Doc) :
    extract_og_image doc = extract_og_image_amended doc := by
  unfold extract_og_image extract_og_image_amended
  rw [twitterFallback_eq]
  cases hfind : findMetaProperty doc "og:image" with
  | none => simp [metaContent]
  | some t =>
    cases hget : t.get "content" with
    | none => simp [metaContent, hget]
    | some c =>
      by_cases hc : c = "" <;> simp [metaContent, hget, hc]

/-- C5 counterexample: the optional image field's value carries leading and
trailing whitespace; the resolver returns the stripped string, not the
field's value verbatim. -/
theorem C5_counterexample :
    get_amazon_image_url (fun _ => none)
        [("img", Cell.s " http://x/img.png "), ("url", Cell.s "u")]
        "url" (some "img")
      = some "http://x/img.png" ∧
    get_amazon_image_url (fun _ => none)
        [("img", Cell.s " http://x/img.png "), ("url", Cell.s "u")]
        "url" (some "img")
      ≠ some " http://x/img.png " := by
  constructor
  · rfl
  · decide

/-- C5 (corrected): when the optional image column is configured (non-empty
name), present in the row, not NaN, and its stringified value strips to a
non-empty string, the resolver returns that value stripped of surrounding
whitespace (hence verbatim exactly when the value has none), and the result
is identical for any two Page Fetcher behaviours — this path performs no
network access. -/
theorem C5_direct_field_no_fetch (f₁ f₂ : String → Option Doc) (row : Row)
    (amazon_url_col : String) (c : String) (v : Cell)
    (hc : c ≠ "") (hmem : row.lookup c = some v)
    (hna : pd_notna v = true) (hblank : pyStrip (pyStr v) ≠ "") :
    get_amazon_image_url f₁ row amazon_url_col (some c)
      = some (pyStrip (pyStr v)) ∧
    get_amazon_image_url f₁ row amazon_url_col (some c)
      = get_amazon_image_url f₂ row amazon_url_col (some c) := by
  have hdirect : directImageField row (some c) = some (pyStrip (pyStr v)) := by
    simp [directImageField, hc, Row.pyMem, Row.pyGet, hmem, hna, hblank]
  constructor
  · simp [get_amazon_image_url, hdirect]
  · simp [get_amazon_image_url, hdirect]

/-- C5 witness: the optional image column holds `"http://x/img.png"`; a
never-answering fetcher and an always-answering fetcher give the same
verbatim result. -/
theorem C5_direct_field_no_fetch_witness :
    get_amazon_image_url (fun _ => none)
        [("img", Cell.s "http://x/img.png"), ("url", Cell.s "u")]
        "url" (some "img")
      = some (pyStrip (pyStr (Cell.s "http://x/img.png"))) ∧
    get_amazon_image_url (fun _ => none)
        [("img", Cell.s "http://x/img.png"), ("url", Cell.s "u")]
        "url" (some "img")
      = get_amazon_image_url
          (fun _ => some [⟨"meta", [("property", "og:image"), ("content", "A")]⟩])
          [("img", Cell.s "http://x/img.png"), ("url", Cell.s "u")]
          "url" (some "img") :=
  C5_direct_field_no_fetch (fun _ => none)
    (fun _ => some [⟨"meta", [("property", "og:image"), ("content", "A")]⟩])
    [("img", Cell.s "http://x/img.png"), ("url", Cell.s "u")]
    "url" "img" (Cell.s "http://x/img.png")
    (by decide) (by decide) (by decide) (by decide)

/-- C6 counterexample: a row whose primary URL field is null (NaN) and with
no optional image field configured.  The claim says the resolver returns
absent without invoking the Page Fetcher; instead `str(nan)` is `"nan"`,
which is non-blank, so the code fetches the literal URL `"nan"`: a fetcher
answering only for `"nan"` makes the resolver return its page's image, and
the result differs between two fetchers. -/
theorem C6_counterexample :
    get_amazon_image_url
        (fun u => if u = "nan"
          then some [⟨"meta", [("property", "og:image"), ("content", "A")]⟩]
          else none)
        [("url", Cell.na)] "url" none
      = some "A" ∧
    get_amazon_image_url (fun _ => none) [("url", Cell.na)] "url" none
      = none := by
  constructor
  · rfl
  · rfl

/-- C6 (corrected): for a row with no usable optional image field whose
primary URL field's stringified value strips to the empty string (a blank
string — not NaN: a NaN stringifies to `"nan"` and triggers a live fetch of
the literal URL `"nan"`), the resolver returns absent, identically for any
two Page Fetcher behaviours. -/
theorem C6_blank_url_absent (f₁ f₂ : String → Option Doc) (row : Row)
    (amazon_url_col : String) (amazon_img_col : Option String)
    (hdirect : directImageField row amazon_img_col = none)
    (hblank : pyStrip (pyStr (row.pyGet amazon_url_col)) = "") :
    get_amazon_image_url f₁ row amazon_url_col amazon_img_col = none ∧
    get_amazon_image_url f₁ row amazon_url_col amazon_img_col
      = get_amazon_image_url f₂ row amazon_url_col amazon_img_col := by
  have h1 : ∀ f, get_amazon_image_url f row amazon_url_col amazon_img_col
      = none := by
    intro f
    simp [get_amazon_image_url, hdirect, resolveViaPage, hblank]
  exact ⟨h1 f₁, by rw [h1 f₁, h1 f₂]⟩

/-- C6 witness: a row whose primary URL field is the blank string `"  "`,
no optional image column configured. -/
theorem C6_blank_url_absent_witness :
    get_amazon_image_url (fun _ => none) [("url", Cell.s "  ")] "url" none
      = none ∧
    get_amazon_image_url (fun _ => none) [("url", Cell.s "  ")] "url" none
      = get_amazon_image_url
          (fun _ => some [⟨"meta", [("property", "og:image"), ("content", "A")]⟩])
          [("url", Cell.s "  ")] "url" none :=
  C6_blank_url_absent (fun _ => none)
    (fun _ => some [⟨"meta", [("property", "og:image"), ("content", "A")]⟩])
    [("url", Cell.s "  ")] "url" none (by decide) (by decide)
